import Mathlib

/-!
Shallow embedding of `gitlab-pipe-viewer` (`main.go`) and proofs about its
navigation state machine, group filtering, pagination behaviour, job action
sub-flow, startup configuration and `toInt` helper.

The tview/tcell widget toolkit and the go-gitlab HTTP client are external
collaborators; they are modelled respectively by a `View` datatype describing
the widget tree currently installed as the application root, and by a
`Client` record of paginated query functions returning `Except`.
`fmt.Println` output is modelled by an append-only `log` in `AppState`.
-/

namespace GitlabPipeViewer

/-- A GitLab group as displayed by the tool (`group.ID`, `group.Name`). -/
structure Group where
  id : Int
  name : String
deriving DecidableEq

/-- A GitLab project (`project.ID`, `project.Name`). -/
structure Project where
  id : Int
  name : String
deriving DecidableEq

/-- A repository branch (`branch.Name`). -/
structure Branch where
  name : String
deriving DecidableEq

/-- A CI pipeline with the fields the UI formats. -/
structure Pipeline where
  id : Int
  status : String
  ref : String
  source : String
  updatedAt : String
deriving DecidableEq

/-- A CI job with the fields the UI formats (`job.ID`, `job.Name`, `job.Status`). -/
structure Job where
  id : Int
  name : String
  status : String
deriving DecidableEq

/-- The value stored in a tview tree node by `SetReference`; Go stores an
`interface\x7b\x7d`, which the code reads back with the type assertion
`.(string)`.  `str` is a stored string, `nil` an unset reference, `other`
a stored value of any non-string type. -/
inductive Ref where
  | str (s : String)
  | nil
  | other
deriving DecidableEq

/-- A tview tree node: display text, reference and children. -/
inductive TreeNode where
  | mk (text : String) (ref : Ref) (children : List TreeNode)

/-- Display text of a tree node (`GetText`). -/
def TreeNode.text : TreeNode → String
  | .mk t _ _ => t

/-- Reference of a tree node (`GetReference`). -/
def TreeNode.ref : TreeNode → Ref
  | .mk _ r _ => r

/-- Children of a tree node. -/
def TreeNode.children : TreeNode → List TreeNode
  | .mk _ _ c => c

/-- `t` occurs in the tree rooted at `r` (reflexive-transitive child closure). -/
inductive NodeIn : TreeNode → TreeNode → Prop where
  | refl (t : TreeNode) : NodeIn t t
  | child {n c r : TreeNode} : c ∈ r.children → NodeIn n c → NodeIn n r

/-- Go `strings.ToLower` restricted to ASCII case mapping, on the character
list of a string (every name in the program is handled character-wise). -/
def lowerChars (s : String) : List Char :=
  s.data.map Char.toLower

/-- Go `strings.Contains` on character lists: `sub` occurs as a contiguous
substring of `s`. -/
def containsSub : List Char → List Char → Bool
  | [], sub => sub.isEmpty
  | c :: t, sub => sub.isPrefixOf (c :: t) || containsSub t sub

/-- Go `strings.HasPrefix s pre`. -/
def strStarts (s pre : String) : Bool :=
  pre.data.isPrefixOf s.data

/-- The filter condition of `buildGroups`:
`searchTerm == "" || strings.Contains(strings.ToLower(group.Name), strings.ToLower(searchTerm))`. -/
def groupMatches (searchTerm : String) (g : Group) : Bool :=
  searchTerm == "" || containsSub (lowerChars g.name) (lowerChars searchTerm)

/-- Decimal digit value of a character, if it is a digit. -/
def digitVal (c : Char) : Option Nat :=
  if '0' ≤ c ∧ c ≤ '9' then some (c.toNat - '0'.toNat) else none

/-- Value of a non-empty all-digit character list, as `strconv` accumulates it. -/
def digitsToNat : List Char → Option Nat
  | [] => none
  | cs => cs.foldl (fun acc c => acc.bind fun n => (digitVal c).map fun d => 10 * n + d) (some 0)

/-- Largest Go `int` (64-bit platform), `1<<63 - 1`. -/
def goIntMax : Int := 2 ^ 63 - 1

/-- Go `strconv.Atoi`: an optional sign followed by at least one decimal
digit, the value fitting in a 64-bit `int`; `none` models a non-nil error
(syntax or range). -/
def atoi? (s : String) : Option Int :=
  match s.data with
  | '+' :: rest => (digitsToNat rest).bind fun n =>
      if (n : Int) ≤ goIntMax then some (n : Int) else none
  | '-' :: rest => (digitsToNat rest).bind fun n =>
      if (n : Int) ≤ 2 ^ 63 then some (-(n : Int)) else none
  | cs => (digitsToNat cs).bind fun n =>
      if (n : Int) ≤ goIntMax then some (n : Int) else none

/-- `toInt` from `main.go`: `strconv.Atoi`, returning `0` on any error. -/
def toInt (s : String) : Int :=
  match atoi? s with
  | some n => n
  | none => 0

/-- The go-gitlab client as the program consumes it.  The groups endpoint is
paginated on the server side: `groupPages p` is the server's page `p` and
`groupTotalPages` the total page count it reports (`X-Total-Pages`).  Every
call can fail with a network/HTTP error, modelled as `Except.error`.
`getTraceFile` has two failure stages: the HTTP call itself and the
subsequent `io.ReadAll` of the returned reader. -/
structure Client where
  groupPages : Nat → Except String (List Group)
  groupTotalPages : Nat
  listGroupProjects : Int → Except String (List Project)
  listBranches : String → Except String (List Branch)
  listProjectPipelines : String → String → Except String (List Pipeline)
  listPipelineJobs : String → Int → Except String (List Job)
  getTraceFile : String → Int → Except String (Except String String)
  retryJob : String → Int → Except String Unit

/-- The call `gitlabClient.Groups.ListGroups(&gitlab.ListGroupsOptions\x7b\x7d)`
in `buildGroups`: one HTTP request, returning the server's first page only.
The second component counts the page requests issued (always 1: the code
contains no pagination loop). -/
def groupFetch (client : Client) : Except String (List Group) × Nat :=
  (client.groupPages 1, 1)

/-- Modelled from the spec (§4.2 pagination accumulator, absent from the
source): starting at page `page`, request a page, append its items, and stop
as soon as the current page index reaches `totalPages`; `fuel` bounds the
recursion.  Returns the accumulated items and the number of page requests. -/
def paginateSpecAux (client : Client) : Nat → Nat → Except String (List Group) × Nat
  | _, 0 => (.ok [], 0)
  | page, fuel + 1 =>
    match client.groupPages page with
    | .error e => (.error e, 1)
    | .ok items =>
      if client.groupTotalPages ≤ page then (.ok items, 1)
      else
        match paginateSpecAux client (page + 1) fuel with
        | (.error e, n) => (.error e, n + 1)
        | (.ok rest, n) => (.ok (items ++ rest), n + 1)

/-- Modelled from the spec (§4.2): the pagination accumulator run from
page 1; it must terminate even when `totalPages` is 0 or 1. -/
def paginateSpec (client : Client) : Except String (List Group) × Nat :=
  paginateSpecAux client 1 (client.groupTotalPages + 1)

/-- The nerd-font glyph preceding `Instance:` in the tree root label. -/
def instanceGlyph : Char := Char.ofNat 0xF0BA0

/-- The nerd-font glyph preceding `Group:` in a group node label. -/
def groupGlyph : Char := Char.ofNat 0xE5FB

/-- Label of the instance root node built by `buildGroups`. -/
def instanceLabel (url : String) : String :=
  String.mk [instanceGlyph] ++ " Instance: " ++ url

/-- Label of a group node: glyph, `" Group: "`, group name. -/
def groupLabel (name : String) : String :=
  String.mk [groupGlyph] ++ " Group: " ++ name

/-- The project node `buildGroups` creates: label `"Project: " ++ name`,
reference the project id converted to a string (`fmt.Sprintf("%d", ID)`). -/
def projectNode (p : Project) : TreeNode :=
  .mk ("Project: " ++ p.name) (.str (toString p.id)) []

/-- The group node `buildGroups` creates, with one child per project of the
group; a failed project fetch leaves the group childless (`continue`). -/
def groupNode (client : Client) (g : Group) : TreeNode :=
  .mk (groupLabel g.name) .nil
    (match client.listGroupProjects g.id with
     | .error _ => []
     | .ok ps => ps.map projectNode)

/-- `buildGroups` from `main.go`: fetch the groups (single page request),
keep those matching the search term, and build one child node per kept
group; a failed group fetch yields the bare instance root. -/
def buildGroups (client : Client) (url searchTerm : String) : TreeNode :=
  .mk (instanceLabel url) .nil
    (match (groupFetch client).1 with
     | .error _ => []
     | .ok groups => (groups.filter (groupMatches searchTerm)).map (groupNode client))

/-- `buildTree` from `main.go`: the `"GitLab Pipelines"` root with the
instance subtree from `buildGroups` as its only child. -/
def buildTree (client : Client) (url searchTerm : String) : TreeNode :=
  .mk "GitLab Pipelines" .nil [buildGroups client url searchTerm]

/-- The widget currently installed as application root (`app.SetRoot`).
`groupTree` carries the search term the tree was built with; `logView`
carries the `JobList` parameters its escape handler returns to. -/
inductive View where
  | groupTree (searchTerm : String) (tree : TreeNode)
  | branchSelect (projectID : String) (branches : List Branch)
  | pipelineList (projectID branch : String) (pipelines : List Pipeline)
  | jobList (projectID branch : String) (jobs : List Job)
  | jobActionModal (projectID branch : String) (jobs : List Job) (selected : Job)
  | logView (content : String) (projectID branch : String) (jobs : List Job)

/-- The two environment settings read in `init`. -/
structure Config where
  token : String
  url : String
deriving DecidableEq

/-- Whole-application state: the startup configuration, the current root
widget, and the accumulated `fmt.Println` output. -/
structure AppState where
  config : Config
  root : View
  log : List String

/-- `os.Getenv` environment: returns `""` for unset variables, as Go does. -/
structure Env where
  get : String → String

/-- Default base URL used when `GITLAB_URL` is unset. -/
def defaultGitlabURL : String := "https://gitlab.com"

/-- Outcome of the `init` function: either `os.Exit(1)` before any UI is
shown, or a configuration the rest of the process uses. -/
inductive InitResult where
  | exit (code : Nat) (msg : String)
  | ok (cfg : Config)
deriving DecidableEq

/-- `init` from `main.go`: require `GITLAB_PERSONAL_TOKEN` (exit 1 when
empty), default `GITLAB_URL` to `https://gitlab.com`.  Each variable is read
exactly once; the client-construction error path of `gitlab.NewClient` is
not modelled (it depends only on URL well-formedness, not on the claims). -/
def initProgram (env : Env) : InitResult :=
  let token := env.get "GITLAB_PERSONAL_TOKEN"
  if token = "" then
    .exit 1 "Please set GITLAB_PERSONAL_TOKEN environment variable."
  else
    let url0 := env.get "GITLAB_URL"
    let url := if url0 = "" then defaultGitlabURL else url0
    .ok (Config.mk token url)

/-- The `fmt.Println` line of a failed pipelines fetch. -/
def pipelinesErrMsg (projectID branch e : String) : String :=
  "Error fetching pipelines for project " ++ projectID ++ " and branch " ++ branch ++ " : " ++ e

/-- The `fmt.Println` line of a failed jobs fetch. -/
def jobsErrMsg (projectID pipelineID e : String) : String :=
  "Error fetching jobs for project " ++ projectID ++ " and pipeline " ++ pipelineID ++ " : " ++ e

/-- The `fmt.Println` line of a failed branches fetch. -/
def branchesErrMsg (projectID e : String) : String :=
  "Error fetching branches for project " ++ projectID ++ " : " ++ e

/-- `fetchAndShowPipelines`: list the project's pipelines for the branch; on
error print and return (the root widget is left untouched), on success
install the pipeline list. -/
def fetchAndShowPipelines (client : Client) (st : AppState) (projectID branch : String) : AppState :=
  match client.listProjectPipelines projectID branch with
  | .error e => { st with log := st.log ++ [pipelinesErrMsg projectID branch e] }
  | .ok ps => { st with root := .pipelineList projectID branch ps }

/-- `fetchAndShowJobs`: list the pipeline's jobs (the pipeline id string goes
through `toInt`); on error print and return, on success install the job list
built by `rebuildJobListView` (whose parameters are the same jobs slice,
project id and branch). -/
def fetchAndShowJobs (client : Client) (st : AppState) (projectID pipelineID pipelineName : String) : AppState :=
  match client.listPipelineJobs projectID (toInt pipelineID) with
  | .error e => { st with log := st.log ++ [jobsErrMsg projectID pipelineID e] }
  | .ok jobs => { st with root := .jobList projectID pipelineName jobs }

/-- `showPipelines`: read the node's reference with the `.(string)` type
assertion; abort with `Invalid project reference` unless it is a string,
otherwise fetch the branches and install the branch drop-down. -/
def showPipelines (client : Client) (st : AppState) (node : TreeNode) : AppState :=
  match node.ref with
  | .str projectID =>
    match client.listBranches projectID with
    | .error e => { st with log := st.log ++ [branchesErrMsg projectID e] }
    | .ok branches => { st with root := .branchSelect projectID branches }
  | _ => { st with log := st.log ++ ["Invalid project reference"] }

/-- `retryJob`: call the retry mutation (the job id string goes through
`toInt`) and print the outcome; the root widget is never touched here. -/
def retryJob (client : Client) (st : AppState) (projectID jobID : String) : AppState :=
  match client.retryJob projectID (toInt jobID) with
  | .error e => { st with log := st.log ++ ["Error retrying job: " ++ e] }
  | .ok _ => { st with log := st.log ++ ["Job retried successfully"] }

/-- `fetchAndDisplayJobLogs`: fetch the trace file, read it, and install the
log view; either failure prints and returns with the root untouched.  The
return target (`returnToModal`, which rebuilds the job list from the same
slice) is carried in the installed view. -/
def fetchAndDisplayJobLogs (client : Client) (st : AppState) (projectID jobID : String)
    (retProject retBranch : String) (retJobs : List Job) : AppState :=
  match client.getTraceFile projectID (toInt jobID) with
  | .error e => { st with log := st.log ++ ["Error fetching logs: " ++ e] }
  | .ok reader =>
    match reader with
    | .error e => { st with log := st.log ++ ["Error reading logs: " ++ e] }
    | .ok logs => { st with root := .logView logs retProject retBranch retJobs }

/-- The `SetDoneFunc` of the job action modal in `rebuildJobListView`:
`Logs` fetches and displays the trace; `Retry` calls `retryJob` and then
unconditionally `returnToJobList()`; `Cancel` just `returnToJobList()`.
`returnToJobList` rebuilds the job list view from the captured `pipelineJobs`
slice — no re-fetch. -/
def jobActionDone (client : Client) (st : AppState) (projectID branch : String)
    (jobs : List Job) (sel : Job) (choice : String) : AppState :=
  if choice = "Logs" then
    fetchAndDisplayJobLogs client st projectID (toString sel.id) projectID branch jobs
  else if choice = "Retry" then
    let st' := retryJob client st projectID (toString sel.id)
    { st' with root := .jobList projectID branch jobs }
  else if choice = "Cancel" then
    { st with root := .jobList projectID branch jobs }
  else st

/-- `returnToGroupTree` in `fetchAndShowPipelines`: escape from the pipeline
list installs `buildTree(app, "")` — the search term is reset to `""`. -/
def returnToGroupTree (client : Client) (st : AppState) : AppState :=
  { st with root := .groupTree "" (buildTree client st.config.url "") }

/-- Discrete input events delivered by the widget toolkit. -/
inductive Event where
  | submitFilter (text : String)
  | selectNode (node : TreeNode)
  | selectBranch (idx : Nat)
  | selectPipeline (idx : Nat)
  | escPipelineList
  | selectJob (idx : Nat)
  | jobAction (choice : String)
  | escJobList
  | escLogView

/-- One step of the event loop: dispatch an input event against the current
root widget, exactly as the registered tview handlers do.  Index events
carry the position the widget reports, which is always in range for a real
widget; out-of-range indices are ignored. -/
def step (client : Client) (ev : Event) (st : AppState) : AppState :=
  match ev, st.root with
  | .submitFilter text, _ =>
    { st with root := .groupTree text (buildTree client st.config.url text) }
  | .selectNode node, _ =>
    if strStarts node.text "Project: " then showPipelines client st node else st
  | .selectBranch idx, .branchSelect projectID branches =>
    (match branches.get? idx with
     | some b => fetchAndShowPipelines client st projectID b.name
     | none => st)
  | .selectPipeline idx, .pipelineList projectID branch ps =>
    (match ps.get? idx with
     | some p => fetchAndShowJobs client st projectID (toString p.id) branch
     | none => st)
  | .escPipelineList, .pipelineList _ _ _ => returnToGroupTree client st
  | .selectJob idx, .jobList projectID branch jobs =>
    (match jobs.get? idx with
     | some j => { st with root := .jobActionModal projectID branch jobs j }
     | none => st)
  | .jobAction choice, .jobActionModal projectID branch jobs sel =>
    jobActionDone client st projectID branch jobs sel choice
  | .escJobList, .jobList projectID branch _ =>
    fetchAndShowPipelines client st projectID branch
  | .escLogView, .logView _ projectID branch jobs =>
    { st with root := .jobList projectID branch jobs }
  | _, _ => st

/-! Concrete test fixtures used by witnesses and counterexamples. -/

/-- The group `{id:1, name:"Alpha"}` of the spec scenario. -/
def gAlpha : Group := ⟨1, "Alpha"⟩

/-- The group `{id:2, name:"beta"}` of the spec scenario. -/
def gBeta : Group := ⟨2, "beta"⟩

/-- A sample project with id 7. -/
def pDemo : Project := ⟨7, "proj"⟩

/-- The branch `main`. -/
def bMain : Branch := ⟨"main"⟩

/-- A sample pipeline with id 5. -/
def pipe5 : Pipeline := ⟨5, "success", "main", "push", "2024-01-01"⟩

/-- Job 99 in state `failed` (pre-retry). -/
def jobFailed : Job := ⟨99, "build", "failed"⟩

/-- Job 99 in state `pending` (the server's post-retry state). -/
def jobPending : Job := ⟨99, "build", "pending"⟩

/-- A healthy single-page server: groups Alpha and beta, one project in
Alpha, one branch, one pipeline; the jobs endpoint reports job 99 as
`pending` (its state after a retry). -/
def demoClient : Client :=
  { groupPages := fun p => if p = 1 then .ok [gAlpha, gBeta] else .ok []
    groupTotalPages := 1
    listGroupProjects := fun gid => if gid = 1 then .ok [pDemo] else .ok []
    listBranches := fun _ => .ok [bMain]
    listProjectPipelines := fun _ _ => .ok [pipe5]
    listPipelineJobs := fun _ _ => .ok [jobPending]
    getTraceFile := fun _ _ => .ok (.ok "log text")
    retryJob := fun _ _ => .ok () }

/-- A server whose group listing spans two pages: page 1 holds Alpha,
page 2 holds beta. -/
def pagedClient : Client :=
  { groupPages := fun p => if p = 1 then .ok [gAlpha] else if p = 2 then .ok [gBeta] else .ok []
    groupTotalPages := 2
    listGroupProjects := fun _ => .ok []
    listBranches := fun _ => .ok [bMain]
    listProjectPipelines := fun _ _ => .ok [pipe5]
    listPipelineJobs := fun _ _ => .ok [jobPending]
    getTraceFile := fun _ _ => .ok (.ok "log text")
    retryJob := fun _ _ => .ok () }

/-- A server on which every call fails with a network error. -/
def failClient : Client :=
  { groupPages := fun _ => .error "network"
    groupTotalPages := 1
    listGroupProjects := fun _ => .error "network"
    listBranches := fun _ => .error "network"
    listProjectPipelines := fun _ _ => .error "network"
    listPipelineJobs := fun _ _ => .error "network"
    getTraceFile := fun _ _ => .error "network"
    retryJob := fun _ _ => .error "network" }

/-- A sample startup configuration. -/
def demoConfig : Config := ⟨"tok", "https://gitlab.com"⟩

/-- A state with the sample configuration, a given root widget and empty log. -/
def mkState (v : View) : AppState := ⟨demoConfig, v, []⟩

/-- An environment with no variables set. -/
def envMissing : Env := ⟨fun _ => ""⟩

/-- An environment with only the token set. -/
def envTokenOnly : Env := ⟨fun k => if k = "GITLAB_PERSONAL_TOKEN" then "tok" else ""⟩

/-- A job action modal over the stale job list `[jobFailed]`. -/
def stModal : AppState := mkState (.jobActionModal "7" "main" [jobFailed] jobFailed)

/-- The state after choosing `Retry` on the modal, against the demo server
(whose jobs endpoint already reports job 99 as `pending`). -/
def stAfterRetry : AppState := step demoClient (.jobAction "Retry") stModal

/-- The state after choosing `Logs` on the modal, against the failing server. -/
def stAfterLogsFail : AppState := step failClient (.jobAction "Logs") stModal

/-- The initial group view of the enter-then-back scenario. -/
def st5Start : AppState := mkState (.groupTree "" (buildTree demoClient "https://gitlab.com" ""))

/-- After the user submits the search filter `"al"`. -/
def st5Filtered : AppState := step demoClient (.submitFilter "al") st5Start

/-- After the user selects the displayed project node. -/
def st5Branch : AppState := step demoClient (.selectNode (projectNode pDemo)) st5Filtered

/-- After the user selects branch 0 (`main`): a pipeline list. -/
def st5Pipes : AppState := step demoClient (.selectBranch 0) st5Branch

/-- After the user presses escape on the pipeline list. -/
def st5Back : AppState := step demoClient .escPipelineList st5Pipes

/-! Observation helpers on views, used to state concrete counterexamples. -/

/-- The jobs displayed by a `jobList` view (`[]` for any other view). -/
def viewJobs : View → List Job
  | .jobList _ _ jobs => jobs
  | _ => []

/-- The statuses of the jobs displayed by a `jobList` view. -/
def jobStatusesOf (v : View) : List String :=
  (viewJobs v).map Job.status

/-- The search term a `groupTree` view was built with. -/
def viewSearchTerm : View → Option String
  | .groupTree t _ => some t
  | _ => none

/-- Whether the root widget is a `jobList`. -/
def viewIsJobList : View → Bool
  | .jobList _ _ _ => true
  | _ => false

/-- Whether the root widget is the job action modal. -/
def viewIsJobActionModal : View → Bool
  | .jobActionModal _ _ _ _ => true
  | _ => false

/-- The project id and branch a `pipelineList` view was fetched with. -/
def viewPipelineParams : View → Option (String × String)
  | .pipelineList p b _ => some (p, b)
  | _ => none

/-- The group nodes displayed by a `groupTree` view: the children of the
instance node, which is the single child of the `"GitLab Pipelines"` root. -/
def displayedGroupNodes (v : View) : List TreeNode :=
  match v with
  | .groupTree _ t => ((t.children.head?).map TreeNode.children).getD []
  | _ => []

/-! Helper lemmas. -/

/-- `containsSub` decides contiguous-substring occurrence. -/
theorem containsSub_iff (s sub : List Char) :
    containsSub s sub = true ↔ ∃ pre post, s = pre ++ sub ++ post := by
  induction s with
  | nil =>
    simp only [containsSub, List.isEmpty_iff]
    constructor
    · intro h
      exact ⟨[], [], by simp [h]⟩
    · rintro ⟨pre, post, h⟩
      rcases List.append_eq_nil.mp (List.append_eq_nil.mp h.symm).1 with ⟨-, h2⟩
      exact h2
  | cons c t ih =>
    simp only [containsSub, Bool.or_eq_true, ih, List.isPrefixOf_iff_prefix]
    constructor
    · rintro (⟨r, hr⟩ | ⟨pre, post, h⟩)
      · exact ⟨[], r, by simpa using hr.symm⟩
      · exact ⟨c :: pre, post, by simp [h]⟩
    · rintro ⟨pre, post, h⟩
      cases pre with
      | nil =>
        exact Or.inl ⟨post, by simpa using h.symm⟩
      | cons c' pre' =>
        simp only [List.cons_append, List.cons.injEq] at h
        exact Or.inr ⟨pre', post, h.2⟩

/-- The filter predicate of `buildGroups`, characterised: empty term, or the
lower-cased term occurs inside the lower-cased name. -/
theorem groupMatches_iff (term : String) (g : Group) :
    groupMatches term g = true ↔
      (term = "" ∨ ∃ pre post, lowerChars g.name = pre ++ lowerChars term ++ post) := by
  simp [groupMatches, containsSub_iff]

/-- Inversion for `NodeIn`: a node of a tree is the root or lies in a child. -/
theorem nodeIn_inv {n t : TreeNode} (h : NodeIn n t) :
    n = t ∨ ∃ c ∈ t.children, NodeIn n c := by
  cases h with
  | refl => exact Or.inl rfl
  | child hc hn => exact Or.inr ⟨_, hc, hn⟩

/-- C10: `toInt` is total; it returns the decimal value when the string
parses as a Go `int` and `0` otherwise; consequently an unparseable pipeline
id is passed to the jobs endpoint as id `0`, and an unparseable job id is
passed to the retry mutation as id `0`. -/
theorem toInt_total_default_and_api_use :
    (∀ (s : String) (n : Int), atoi? s = some n → toInt s = n) ∧
    (∀ s : String, atoi? s = none → toInt s = 0) ∧
    (∀ (client : Client) (st : AppState) (projectID pipelineID branch : String) (jobs : List Job),
      atoi? pipelineID = none →
      client.listPipelineJobs projectID 0 = .ok jobs →
      (fetchAndShowJobs client st projectID pipelineID branch).root = .jobList projectID branch jobs) ∧
    (∀ (client : Client) (st : AppState) (projectID jobID : String),
      atoi? jobID = none →
      client.retryJob projectID 0 = .ok () →
      (retryJob client st projectID jobID).log = st.log ++ ["Job retried successfully"]) := by
  refine ⟨?_, ?_, ?_, ?_⟩
  · intro s n h
    simp [toInt, h]
  · intro s h
    simp [toInt, h]
  · intro client st projectID pipelineID branch jobs hparse hjobs
    have ht : toInt pipelineID = 0 := by simp [toInt, hparse]
    simp [fetchAndShowJobs, ht, hjobs]
  · intro client st projectID jobID hparse hretry
    have ht : toInt jobID = 0 := by simp [toInt, hparse]
    simp [retryJob, ht, hretry]

/-- Witness for C10 at concrete inputs: `"123"` parses, `"abc"` and `""` do
not, and the unparseable pipeline id `"abc"` reaches the API as id `0`. -/
theorem toInt_total_default_and_api_use_witness :
    toInt "123" = 123 ∧ toInt "abc" = 0 ∧ toInt "" = 0 ∧
    (fetchAndShowJobs demoClient (mkState (.pipelineList "7" "main" [pipe5])) "7" "abc" "main").root
      = .jobList "7" "main" [jobPending] ∧
    (retryJob demoClient (mkState (.jobList "7" "main" [jobFailed])) "7" "abc").log
      = (mkState (.jobList "7" "main" [jobFailed])).log ++ ["Job retried successfully"] :=
  ⟨toInt_total_default_and_api_use.1 "123" 123 (by decide),
   toInt_total_default_and_api_use.2.1 "abc" (by decide),
   toInt_total_default_and_api_use.2.1 "" (by decide),
   toInt_total_default_and_api_use.2.2.1 demoClient _ "7" "abc" "main" [jobPending] (by decide) rfl,
   toInt_total_default_and_api_use.2.2.2 demoClient _ "7" "abc" (by decide) rfl⟩

/-- C4: when the group fetch succeeds the displayed group nodes are exactly
the nodes of the groups whose filter predicate holds, in server order; the
predicate holds iff the term is empty or the lower-cased term occurs in the
lower-cased name; the `Alpha`/`beta` scenario with filter `"al"` keeps
exactly `Alpha`; and applying the same non-empty filter twice equals
applying it once. -/
theorem buildGroups_filter_correct :
    (∀ (client : Client) (url term : String) (groups : List Group),
      (groupFetch client).1 = .ok groups →
      (buildGroups client url term).children
        = (groups.filter (groupMatches term)).map (groupNode client)) ∧
    (∀ (term : String) (g : Group),
      groupMatches term g = true ↔
        (term = "" ∨ ∃ pre post, lowerChars g.name = pre ++ lowerChars term ++ post)) ∧
    ([gAlpha, gBeta].filter (groupMatches "al") = [gAlpha]) ∧
    (∀ (term : String) (gs : List Group), term ≠ "" →
      (gs.filter (groupMatches term)).filter (groupMatches term) = gs.filter (groupMatches term)) := by
  refine ⟨?_, groupMatches_iff, by decide, ?_⟩
  · intro client url term groups h
    simp [buildGroups, TreeNode.children, h]
  · intro term gs _
    induction gs with
    | nil => rfl
    | cons a l ih =>
      by_cases h : groupMatches term a = true
      · simp [List.filter_cons, h, ih]
      · simp [List.filter_cons, h, ih]

/-- Witness for C4 at concrete inputs: the demo server's two groups filtered
with `"al"` display exactly the `Alpha` node, the predicate instance for
`Alpha`, and idempotence of the `"al"` filter on the demo groups. -/
theorem buildGroups_filter_correct_witness :
    (buildGroups demoClient "https://gitlab.com" "al").children
      = ([gAlpha, gBeta].filter (groupMatches "al")).map (groupNode demoClient) ∧
    (groupMatches "al" gAlpha = true ↔
      ("al" = "" ∨ ∃ pre post, lowerChars gAlpha.name = pre ++ lowerChars "al" ++ post)) ∧
    ([gAlpha, gBeta].filter (groupMatches "al")).filter (groupMatches "al")
      = [gAlpha, gBeta].filter (groupMatches "al") :=
  ⟨buildGroups_filter_correct.1 demoClient "https://gitlab.com" "al" [gAlpha, gBeta] rfl,
   buildGroups_filter_correct.2.1 "al" gAlpha,
   buildGroups_filter_correct.2.2.2 "al" [gAlpha, gBeta] (by decide)⟩

/-- `fetchAndShowPipelines` never touches the configuration. -/
theorem fetchAndShowPipelines_config (client : Client) (st : AppState) (p b : String) :
    (fetchAndShowPipelines client st p b).config = st.config := by
  unfold fetchAndShowPipelines
  split <;> rfl

/-- `fetchAndShowJobs` never touches the configuration. -/
theorem fetchAndShowJobs_config (client : Client) (st : AppState) (p pid b : String) :
    (fetchAndShowJobs client st p pid b).config = st.config := by
  unfold fetchAndShowJobs
  split <;> rfl

/-- `showPipelines` never touches the configuration. -/
theorem showPipelines_config (client : Client) (st : AppState) (node : TreeNode) :
    (showPipelines client st node).config = st.config := by
  unfold showPipelines
  split
  · split <;> rfl
  · rfl

/-- `retryJob` never touches the configuration. -/
theorem retryJob_config (client : Client) (st : AppState) (p j : String) :
    (retryJob client st p j).config = st.config := by
  unfold retryJob
  split <;> rfl

/-- `fetchAndDisplayJobLogs` never touches the configuration. -/
theorem fetchAndDisplayJobLogs_config (client : Client) (st : AppState) (p j rp rb : String)
    (rjobs : List Job) :
    (fetchAndDisplayJobLogs client st p j rp rb rjobs).config = st.config := by
  unfold fetchAndDisplayJobLogs
  split
  · rfl
  · split <;> rfl

/-- The job action dispatch never touches the configuration. -/
theorem jobActionDone_config (client : Client) (st : AppState) (p b : String)
    (jobs : List Job) (sel : Job) (choice : String) :
    (jobActionDone client st p b jobs sel choice).config = st.config := by
  unfold jobActionDone
  split
  · apply fetchAndDisplayJobLogs_config
  · split
    · exact retryJob_config client st p (toString sel.id)
    · split <;> rfl

/-- `returnToGroupTree` never touches the configuration. -/
theorem returnToGroupTree_config (client : Client) (st : AppState) :
    (returnToGroupTree client st).config = st.config := rfl

/-- No event-loop step touches the configuration. -/
theorem step_config (client : Client) (ev : Event) (st : AppState) :
    (step client ev st).config = st.config := by
  unfold step
  split
  · rfl
  · split
    · apply showPipelines_config
    · rfl
  · split
    · apply fetchAndShowPipelines_config
    · rfl
  · split
    · apply fetchAndShowJobs_config
    · rfl
  · apply returnToGroupTree_config
  · split <;> rfl
  · apply jobActionDone_config
  · apply fetchAndShowPipelines_config
  · rfl
  · rfl

/-- C7: with the token setting absent the process exits (code 1) before any
UI is shown; with the token present and the base-URL setting absent the
configuration defaults to `https://gitlab.com`; each setting is read once at
startup and the configuration is never changed by any later event-loop
step. -/
theorem startup_config_correct :
    (∀ env : Env, env.get "GITLAB_PERSONAL_TOKEN" = "" →
      initProgram env = .exit 1 "Please set GITLAB_PERSONAL_TOKEN environment variable.") ∧
    (∀ env : Env, env.get "GITLAB_PERSONAL_TOKEN" ≠ "" → env.get "GITLAB_URL" = "" →
      initProgram env = .ok (Config.mk (env.get "GITLAB_PERSONAL_TOKEN") defaultGitlabURL)) ∧
    (∀ (client : Client) (ev : Event) (st : AppState), (step client ev st).config = st.config) := by
  refine ⟨?_, ?_, step_config⟩
  · intro env h
    simp [initProgram, h]
  · intro env h1 h2
    simp [initProgram, h1, h2]

/-- Witness for C7: the empty environment exits; the token-only environment
yields the default base URL; a concrete step preserves the configuration. -/
theorem startup_config_correct_witness :
    initProgram envMissing = .exit 1 "Please set GITLAB_PERSONAL_TOKEN environment variable." ∧
    initProgram envTokenOnly = .ok (Config.mk "tok" defaultGitlabURL) ∧
    (step demoClient (.jobAction "Retry") stModal).config = stModal.config :=
  ⟨startup_config_correct.1 envMissing rfl,
   startup_config_correct.2.1 envTokenOnly (by decide) rfl,
   startup_config_correct.2.2 demoClient (.jobAction "Retry") stModal⟩

/-- C3: on each navigation transition — selecting a branch for a project,
selecting a pipeline, or pressing escape on the job list — a failing fetch
for the target level leaves the current root widget exactly as it was and
appends an error line; no new view is installed. -/
theorem fetch_failure_preserves_view :
    (∀ (client : Client) (st : AppState) (pid : String) (branches : List Branch)
       (i : Nat) (b : Branch) (e : String),
      st.root = .branchSelect pid branches →
      branches[i]? = some b →
      client.listProjectPipelines pid b.name = .error e →
      (step client (.selectBranch i) st).root = st.root ∧
      (step client (.selectBranch i) st).log = st.log ++ [pipelinesErrMsg pid b.name e]) ∧
    (∀ (client : Client) (st : AppState) (pid branch : String) (ps : List Pipeline)
       (i : Nat) (p : Pipeline) (e : String),
      st.root = .pipelineList pid branch ps →
      ps[i]? = some p →
      client.listPipelineJobs pid (toInt (toString p.id)) = .error e →
      (step client (.selectPipeline i) st).root = st.root ∧
      (step client (.selectPipeline i) st).log = st.log ++ [jobsErrMsg pid (toString p.id) e]) ∧
    (∀ (client : Client) (st : AppState) (pid branch : String) (jobs : List Job) (e : String),
      st.root = .jobList pid branch jobs →
      client.listProjectPipelines pid branch = .error e →
      (step client .escJobList st).root = st.root ∧
      (step client .escJobList st).log = st.log ++ [pipelinesErrMsg pid branch e]) := by
  refine ⟨?_, ?_, ?_⟩
  · rintro client ⟨cfg, root, lg⟩ pid branches i b e hroot hget herr
    simp only [AppState.root] at hroot
    subst hroot
    simp [step, fetchAndShowPipelines, hget, herr]
  · rintro client ⟨cfg, root, lg⟩ pid branch ps i p e hroot hget herr
    simp only [AppState.root] at hroot
    subst hroot
    simp [step, fetchAndShowJobs, hget, herr]
  · rintro client ⟨cfg, root, lg⟩ pid branch jobs e hroot herr
    simp only [AppState.root] at hroot
    subst hroot
    simp [step, fetchAndShowPipelines, herr]

/-- Witness for C3: against the failing server, each of the three
transitions leaves its concrete view in place and logs the error line. -/
theorem fetch_failure_preserves_view_witness :
    ((step failClient (.selectBranch 0) (mkState (.branchSelect "7" [bMain]))).root
        = (mkState (.branchSelect "7" [bMain])).root ∧
      (step failClient (.selectBranch 0) (mkState (.branchSelect "7" [bMain]))).log
        = (mkState (.branchSelect "7" [bMain])).log ++ [pipelinesErrMsg "7" "main" "network"]) ∧
    ((step failClient (.selectPipeline 0) (mkState (.pipelineList "7" "main" [pipe5]))).root
        = (mkState (.pipelineList "7" "main" [pipe5])).root ∧
      (step failClient (.selectPipeline 0) (mkState (.pipelineList "7" "main" [pipe5]))).log
        = (mkState (.pipelineList "7" "main" [pipe5])).log ++ [jobsErrMsg "7" "5" "network"]) ∧
    ((step failClient .escJobList (mkState (.jobList "7" "main" [jobFailed]))).root
        = (mkState (.jobList "7" "main" [jobFailed])).root ∧
      (step failClient .escJobList (mkState (.jobList "7" "main" [jobFailed]))).log
        = (mkState (.jobList "7" "main" [jobFailed])).log ++ [pipelinesErrMsg "7" "main" "network"]) :=
  ⟨fetch_failure_preserves_view.1 failClient (mkState (.branchSelect "7" [bMain]))
      "7" [bMain] 0 bMain "network" rfl rfl rfl,
   fetch_failure_preserves_view.2.1 failClient (mkState (.pipelineList "7" "main" [pipe5]))
      "7" "main" [pipe5] 0 pipe5 "network" rfl rfl rfl,
   fetch_failure_preserves_view.2.2 failClient (mkState (.jobList "7" "main" [jobFailed]))
      "7" "main" [jobFailed] "network" rfl rfl⟩

/-- C8: a job list is installed carrying exactly the project id and branch
the jobs were listed with, and escape from any job list re-fetches and
installs the pipeline list for that same project id and branch. -/
theorem joblist_escape_same_project_branch :
    (∀ (client : Client) (st : AppState) (pid pidStr branch : String) (jobs : List Job),
      client.listPipelineJobs pid (toInt pidStr) = .ok jobs →
      (fetchAndShowJobs client st pid pidStr branch).root = .jobList pid branch jobs) ∧
    (∀ (client : Client) (st : AppState) (pid branch : String) (jobs : List Job) (ps : List Pipeline),
      st.root = .jobList pid branch jobs →
      client.listProjectPipelines pid branch = .ok ps →
      (step client .escJobList st).root = .pipelineList pid branch ps ∧
      (step client .escJobList st).log = st.log) := by
  refine ⟨?_, ?_⟩
  · intro client st pid pidStr branch jobs hjobs
    simp [fetchAndShowJobs, hjobs]
  · rintro client ⟨cfg, root, lg⟩ pid branch jobs ps hroot hps
    simp only [AppState.root] at hroot
    subst hroot
    simp [step, fetchAndShowPipelines, hps]

/-- Witness for C8: jobs of pipeline 5 listed for project 7 on branch
`main`; escape installs the pipeline list for project 7, branch `main`. -/
theorem joblist_escape_same_project_branch_witness :
    (fetchAndShowJobs demoClient (mkState (.pipelineList "7" "main" [pipe5])) "7" "5" "main").root
      = .jobList "7" "main" [jobPending] ∧
    (step demoClient .escJobList (mkState (.jobList "7" "main" [jobPending]))).root
      = .pipelineList "7" "main" [pipe5] ∧
    (step demoClient .escJobList (mkState (.jobList "7" "main" [jobPending]))).log
      = (mkState (.jobList "7" "main" [jobPending])).log :=
  ⟨joblist_escape_same_project_branch.1 demoClient (mkState (.pipelineList "7" "main" [pipe5]))
      "7" "5" "main" [jobPending] rfl,
   (joblist_escape_same_project_branch.2 demoClient (mkState (.jobList "7" "main" [jobPending]))
      "7" "main" [jobPending] [pipe5] rfl rfl).1,
   (joblist_escape_same_project_branch.2 demoClient (mkState (.jobList "7" "main" [jobPending]))
      "7" "main" [jobPending] [pipe5] rfl rfl).2⟩

/-- A character list starting with a character other than `P` has no
`"Project: "` prefix. -/
theorem projectPre_isPrefixOf_false {c : Char} (l : List Char) (h : ('P' == c) = false) :
    List.isPrefixOf "Project: ".data (c :: l) = false := by
  rw [show "Project: ".data = 'P' :: "roject: ".data from rfl, List.isPrefixOf_cons₂, h]
  rfl

/-- The instance root label never carries the `"Project: "` prefix. -/
theorem strStarts_instanceLabel (u : String) :
    strStarts (instanceLabel u) "Project: " = false := by
  have h : (instanceLabel u).data = instanceGlyph :: (" Instance: ".data ++ u.data) := by
    simp [instanceLabel, String.data_append]
  unfold strStarts
  rw [h]
  exact projectPre_isPrefixOf_false _ (by decide)

/-- A group node label never carries the `"Project: "` prefix. -/
theorem strStarts_groupLabel (nm : String) :
    strStarts (groupLabel nm) "Project: " = false := by
  have h : (groupLabel nm).data = groupGlyph :: (" Group: ".data ++ nm.data) := by
    simp [groupLabel, String.data_append]
  unfold strStarts
  rw [h]
  exact projectPre_isPrefixOf_false _ (by decide)

/-- The tree root label never carries the `"Project: "` prefix. -/
theorem strStarts_treeRoot : strStarts "GitLab Pipelines" "Project: " = false := by
  decide

/-- C9: selecting a node whose stored reference is not a string logs
`Invalid project reference` and changes nothing else; and every node of the
tree built by `buildTree`/`buildGroups` whose label starts with
`"Project: "` carries a string reference, so for well-formed views that
error branch is unreachable. -/
theorem invalid_reference_aborts :
    (∀ (client : Client) (st : AppState) (node : TreeNode),
      (∀ s, node.ref ≠ .str s) →
      showPipelines client st node
        = { st with log := st.log ++ ["Invalid project reference"] }) ∧
    (∀ (client : Client) (url term : String) (n : TreeNode),
      NodeIn n (buildTree client url term) →
      strStarts n.text "Project: " = true →
      ∃ s, n.ref = .str s) := by
  refine ⟨?_, ?_⟩
  · rintro client st ⟨t, r, c⟩ h
    cases r with
    | str s => exact absurd rfl (h s)
    | nil => rfl
    | other => rfl
  · intro client url term n hin hpre
    rcases nodeIn_inv hin with heq | ⟨c, hc, hin1⟩
    · subst heq
      rw [show (buildTree client url term).text = "GitLab Pipelines" from rfl,
        strStarts_treeRoot] at hpre
      exact absurd hpre (by decide)
    · simp only [buildTree, TreeNode.children, List.mem_singleton] at hc
      subst hc
      rcases nodeIn_inv hin1 with heq | ⟨c2, hc2, hin2⟩
      · subst heq
        rw [show (buildGroups client url term).text = instanceLabel url from rfl,
          strStarts_instanceLabel] at hpre
        exact absurd hpre (by decide)
      · simp only [buildGroups, TreeNode.children] at hc2
        cases hfetch : (groupFetch client).1 with
        | error e =>
          rw [hfetch] at hc2
          simp at hc2
        | ok gs =>
          rw [hfetch] at hc2
          simp only [List.mem_map] at hc2
          obtain ⟨g, hg1, heqc2⟩ := hc2
          subst heqc2
          rcases nodeIn_inv hin2 with heq | ⟨c3, hc3, hin3⟩
          · subst heq
            rw [show (groupNode client g).text = groupLabel g.name from rfl,
              strStarts_groupLabel] at hpre
            exact absurd hpre (by decide)
          · simp only [groupNode, TreeNode.children] at hc3
            cases hproj : client.listGroupProjects g.id with
            | error e =>
              rw [hproj] at hc3
              simp at hc3
            | ok ps =>
              rw [hproj] at hc3
              simp only [List.mem_map] at hc3
              obtain ⟨p, hp1, heqc3⟩ := hc3
              subst heqc3
              rcases nodeIn_inv hin3 with heq | ⟨c4, hc4, _⟩
              · subst heq
                exact ⟨toString p.id, rfl⟩
              · simp [projectNode, TreeNode.children] at hc4

/-- Witness for C9: a node carrying a non-string reference aborts with the
error line, and the concrete project node of the demo tree both matches the
`"Project: "` prefix and carries a string reference. -/
theorem invalid_reference_aborts_witness :
    showPipelines demoClient (mkState (.groupTree "" (buildTree demoClient "https://gitlab.com" "")))
        (.mk "Project: broken" .other [])
      = { mkState (.groupTree "" (buildTree demoClient "https://gitlab.com" "")) with
          log := (mkState (.groupTree "" (buildTree demoClient "https://gitlab.com" ""))).log
            ++ ["Invalid project reference"] } ∧
    ∃ s, (projectNode pDemo).ref = .str s :=
  ⟨invalid_reference_aborts.1 demoClient _ (.mk "Project: broken" .other [])
      (fun s h => by cases h),
   invalid_reference_aborts.2 demoClient "https://gitlab.com" "" (projectNode pDemo)
      (@NodeIn.child (projectNode pDemo) (buildGroups demoClient "https://gitlab.com" "")
        (buildTree demoClient "https://gitlab.com" "")
        (List.Mem.head _)
        (@NodeIn.child (projectNode pDemo) (groupNode demoClient gAlpha)
          (buildGroups demoClient "https://gitlab.com" "")
          (List.Mem.head _)
          (@NodeIn.child (projectNode pDemo) (projectNode pDemo)
            (groupNode demoClient gAlpha)
            (List.Mem.head _)
            (NodeIn.refl (projectNode pDemo)))))
      (by decide)⟩

/-- C1 counterexample: against a server reporting 2 pages of groups, the
group fetch issues 1 page request (not 2) and returns only page 1, while the
spec's accumulator would issue 2 and return both pages; the page-2 group
`beta` is silently missing from the displayed (unfiltered) group tree. -/
theorem group_pagination_counterexample :
    pagedClient.groupTotalPages = 2 ∧
    (groupFetch pagedClient).2 = 1 ∧
    (1 : Nat) ≠ 2 ∧
    (groupFetch pagedClient).1 = .ok [gAlpha] ∧
    (paginateSpec pagedClient).1 = .ok [gAlpha, gBeta] ∧
    (paginateSpec pagedClient).2 = 2 ∧
    (buildGroups pagedClient "https://gitlab.com" "").children.map TreeNode.text
      = [groupLabel "Alpha"] ∧
    groupLabel "beta" ∉
      (buildGroups pagedClient "https://gitlab.com" "").children.map TreeNode.text := by
  refine ⟨rfl, rfl, by decide, rfl, rfl, rfl, rfl, by decide⟩

/-- C1 amended: the group-level fetch issues exactly one page request,
always for page 1, and the group tree displays/filters only that page's
items in server order; only when the server reports at most one page does
this agree with the spec's pagination accumulator (so the original claim
holds only for N ≤ 1, and groups beyond the first page are omitted). -/
theorem group_fetch_single_page :
    (∀ client : Client, (groupFetch client).2 = 1) ∧
    (∀ client : Client, (groupFetch client).1 = client.groupPages 1) ∧
    (∀ (client : Client) (url term : String) (gs : List Group),
      (groupFetch client).1 = .ok gs →
      (buildGroups client url term).children
        = (gs.filter (groupMatches term)).map (groupNode client)) ∧
    (∀ client : Client, client.groupTotalPages ≤ 1 →
      groupFetch client = paginateSpec client) := by
  refine ⟨fun _ => rfl, fun _ => rfl, ?_, ?_⟩
  · intro client url term gs h
    simp [buildGroups, TreeNode.children, h]
  · intro client h
    cases hp : client.groupPages 1 with
    | error e => simp [groupFetch, paginateSpec, paginateSpecAux, hp]
    | ok items => simp [groupFetch, paginateSpec, paginateSpecAux, hp, h]

/-- Witness for C1 (amended) at the single-page demo server: one request,
page-1 items displayed, and agreement with the spec accumulator. -/
theorem group_fetch_single_page_witness :
    (groupFetch demoClient).2 = 1 ∧
    (buildGroups demoClient "https://gitlab.com" "").children
      = ([gAlpha, gBeta].filter (groupMatches "")).map (groupNode demoClient) ∧
    groupFetch demoClient = paginateSpec demoClient :=
  ⟨group_fetch_single_page.1 demoClient,
   group_fetch_single_page.2.2.1 demoClient "https://gitlab.com" "" [gAlpha, gBeta] rfl,
   group_fetch_single_page.2.2.2 demoClient (by decide)⟩

/-- C2 counterexample: job 99 is displayed as `failed`; Retry is chosen and
the mutation succeeds; the jobs endpoint already reports the job as
`pending`; yet the redisplayed job list still shows `failed` — the claimed
re-fetch never happens. -/
theorem retry_stale_status_counterexample :
    demoClient.retryJob "7" 99 = .ok () ∧
    demoClient.listPipelineJobs "7" 5 = .ok [jobPending] ∧
    jobPending.status = "pending" ∧
    jobStatusesOf stAfterRetry.root = ["failed"] ∧
    jobStatusesOf stAfterRetry.root ≠ ["pending"] ∧
    stAfterRetry.log = ["Job retried successfully"] := by
  refine ⟨rfl, rfl, rfl, rfl, by decide, rfl⟩

/-- C2 amended: after the user chooses Retry and the mutation succeeds, the
jobs are NOT re-fetched: the redisplayed job list holds exactly the jobs
slice fetched before the retry, whatever the jobs endpoint now reports, so
a stale pre-retry status remains displayed. -/
theorem retry_redisplays_stale_jobs :
    ∀ (client : Client) (st : AppState) (pid branch : String) (jobs : List Job) (sel : Job),
      st.root = .jobActionModal pid branch jobs sel →
      client.retryJob pid (toInt (toString sel.id)) = .ok () →
      (step client (.jobAction "Retry") st).root = .jobList pid branch jobs ∧
      (step client (.jobAction "Retry") st).log = st.log ++ ["Job retried successfully"] := by
  rintro client ⟨cfg, root, lg⟩ pid branch jobs sel hroot hretry
  simp only [AppState.root] at hroot
  subst hroot
  simp [step, jobActionDone, retryJob, hretry]

/-- Witness for C2 (amended): the concrete modal over the stale list
`[jobFailed]`, with a succeeding mutation, redisplays `[jobFailed]`. -/
theorem retry_redisplays_stale_jobs_witness :
    (step demoClient (.jobAction "Retry") stModal).root = .jobList "7" "main" [jobFailed] ∧
    (step demoClient (.jobAction "Retry") stModal).log
      = stModal.log ++ ["Job retried successfully"] :=
  retry_redisplays_stale_jobs demoClient stModal "7" "main" [jobFailed] jobFailed rfl rfl

/-- C5 counterexample: the user submits filter `"al"` (one group displayed),
drills into the pipeline list for project 7 / branch `main`, and presses
escape — the restored group view is built with the EMPTY filter: its search
term is `""`, not `"al"`, and both groups are displayed again. -/
theorem back_resets_filter_counterexample :
    viewSearchTerm st5Filtered.root = some "al" ∧
    (displayedGroupNodes st5Filtered.root).length = 1 ∧
    viewPipelineParams st5Pipes.root = some ("7", "main") ∧
    viewSearchTerm st5Back.root = some "" ∧
    viewSearchTerm st5Back.root ≠ some "al" ∧
    (displayedGroupNodes st5Back.root).length = 2 := by
  refine ⟨rfl, rfl, rfl, rfl, by decide, rfl⟩

/-- C5 amended: escape from any pipeline list rebuilds the group view with
the empty search term — the last submitted filter is always discarded, so
the group-filter component is NOT preserved across enter-then-back. -/
theorem back_always_resets_filter :
    ∀ (client : Client) (st : AppState) (pid branch : String) (ps : List Pipeline),
      st.root = .pipelineList pid branch ps →
      (step client .escPipelineList st).root
        = .groupTree "" (buildTree client st.config.url "") := by
  rintro client ⟨cfg, root, lg⟩ pid branch ps hroot
  simp only [AppState.root] at hroot
  subst hroot
  simp [step, returnToGroupTree]

/-- Witness for C5 (amended): escape from the concrete pipeline list of the
enter-then-back scenario restores the group view built with `""`. -/
theorem back_always_resets_filter_witness :
    (step demoClient .escPipelineList st5Pipes).root
      = .groupTree "" (buildTree demoClient st5Pipes.config.url "") :=
  back_always_resets_filter demoClient st5Pipes "7" "main" [pipe5] rfl

/-- C6 counterexample: with the trace fetch failing, choosing Logs reports
the error but leaves the job action modal installed as root — the user is
not left on the job list. -/
theorem logs_failure_leaves_modal_counterexample :
    failClient.getTraceFile "7" 99 = .error "network" ∧
    viewIsJobActionModal stAfterLogsFail.root = true ∧
    viewIsJobList stAfterLogsFail.root = false ∧
    stAfterLogsFail.root = stModal.root ∧
    stAfterLogsFail.log = ["Error fetching logs: network"] := by
  refine ⟨rfl, rfl, rfl, rfl, rfl⟩

/-- C6 amended: from the job action modal, a successful Logs pushes the log
view; Retry — mutation success or failure — reports the outcome and returns
to the job list with its items unmodified; a failing log fetch (or log
read) reports the error but leaves the MODAL displayed (items unmodified;
Cancel then returns to the unmodified job list). -/
theorem job_action_flow :
    ∀ (client : Client) (st : AppState) (pid branch : String) (jobs : List Job) (sel : Job),
      st.root = .jobActionModal pid branch jobs sel →
      ((∀ logs, client.getTraceFile pid (toInt (toString sel.id)) = .ok (.ok logs) →
        (step client (.jobAction "Logs") st).root = .logView logs pid branch jobs) ∧
      (client.retryJob pid (toInt (toString sel.id)) = .ok () →
        (step client (.jobAction "Retry") st).root = .jobList pid branch jobs ∧
        (step client (.jobAction "Retry") st).log = st.log ++ ["Job retried successfully"]) ∧
      (∀ e, client.retryJob pid (toInt (toString sel.id)) = .error e →
        (step client (.jobAction "Retry") st).root = .jobList pid branch jobs ∧
        (step client (.jobAction "Retry") st).log = st.log ++ ["Error retrying job: " ++ e]) ∧
      (∀ e, client.getTraceFile pid (toInt (toString sel.id)) = .error e →
        (step client (.jobAction "Logs") st).root = st.root ∧
        (step client (.jobAction "Logs") st).log = st.log ++ ["Error fetching logs: " ++ e]) ∧
      (∀ e, client.getTraceFile pid (toInt (toString sel.id)) = .ok (.error e) →
        (step client (.jobAction "Logs") st).root = st.root ∧
        (step client (.jobAction "Logs") st).log = st.log ++ ["Error reading logs: " ++ e]) ∧
      ((step client (.jobAction "Cancel") st).root = .jobList pid branch jobs ∧
       (step client (.jobAction "Cancel") st).log = st.log)) := by
  rintro client ⟨cfg, root, lg⟩ pid branch jobs sel hroot
  simp only [AppState.root] at hroot
  subst hroot
  refine ⟨?_, ?_, ?_, ?_, ?_, ?_⟩
  · intro logs h
    simp [step, jobActionDone, fetchAndDisplayJobLogs, h]
  · intro h
    simp [step, jobActionDone, retryJob, h]
  · intro e h
    simp [step, jobActionDone, retryJob, h]
  · intro e h
    simp [step, jobActionDone, fetchAndDisplayJobLogs, h]
  · intro e h
    simp [step, jobActionDone, fetchAndDisplayJobLogs, h]
  · simp [step, jobActionDone]

/-- Witness for C6 (amended): all branches exercised on the concrete modal,
against the healthy and the failing server. -/
theorem job_action_flow_witness :
    (step demoClient (.jobAction "Logs") stModal).root
      = .logView "log text" "7" "main" [jobFailed] ∧
    (step demoClient (.jobAction "Retry") stModal).root = .jobList "7" "main" [jobFailed] ∧
    (step failClient (.jobAction "Retry") stModal).log
      = stModal.log ++ ["Error retrying job: network"] ∧
    (step failClient (.jobAction "Logs") stModal).root = stModal.root ∧
    (step demoClient (.jobAction "Cancel") stModal).root = .jobList "7" "main" [jobFailed] :=
  ⟨(job_action_flow demoClient stModal "7" "main" [jobFailed] jobFailed rfl).1 "log text" rfl,
   ((job_action_flow demoClient stModal "7" "main" [jobFailed] jobFailed rfl).2.1 rfl).1,
   ((job_action_flow failClient stModal "7" "main" [jobFailed] jobFailed rfl).2.2.1 "network" rfl).2,
   ((job_action_flow failClient stModal "7" "main" [jobFailed] jobFailed rfl).2.2.2.1 "network" rfl).1,
   ((job_action_flow demoClient stModal "7" "main" [jobFailed] jobFailed rfl).2.2.2.2.2).1⟩

end GitlabPipeViewer
